import Mathlib

/-!
Verification of the EDHREC training-set pipeline.

This file shallowly embeds the data model and the operations of
`src/data/training_set_creator.py` and `src/data/edhrec_scraper.py`:

* the relational store is a record of lists (`DB` for the read-only
  analytical view used by `TrainingSetCreator`, `Store`/`Conn` for the
  mutable scraper-side view including commit semantics);
* each SQL query is translated to the corresponding list computation
  (joins become nested iteration, `DISTINCT` becomes `dedup`,
  `GROUP BY`/aggregate becomes filter-and-count);
* Python float rates are modelled as exact rationals `ℚ`; the PMI score
  (`log2`) is modelled over `ℝ` with `Real.logb 2`;
* the pseudo-random `torch.randperm` sampling is abstracted as an
  explicit `shuffle : Nat → List Nat → List Nat` parameter (one
  application of the generator per anchor index).
-/

/-- The analytical view of the relational store read by
`TrainingSetCreator`: the `decks` table as `(id, commander_id)` rows and
the `deck_cards` table as `(deck_id, card_id)` rows.  The `commanders`
and `cards` tables are counted in the constructor but never used by the
pipeline, so they are omitted here. -/
structure DB where
  decks : List (Nat × Nat)
  deckCards : List (Nat × Nat)
deriving DecidableEq, Repr

/-- Schema invariants of the store (primary key on `decks.id`, primary
key on `(deck_id, card_id)`, and the `deck_cards.deck_id REFERENCES
decks(id)` constraint). -/
def DB.WF (db : DB) : Prop :=
  (db.decks.map (fun d => d.1)).Nodup ∧
  db.deckCards.Nodup ∧
  ∀ dc ∈ db.deckCards, dc.1 ∈ db.decks.map (fun d => d.1)

instance (db : DB) : Decidable db.WF := by
  unfold DB.WF; infer_instance

/-- First-match association-list lookup, modelling a Python dict read. -/
def lookupOpt {β : Type} (k : Nat) : List (Nat × β) → Option β
  | [] => none
  | (a, b) :: es => if a = k then some b else lookupOpt k es

/-- A Python `dict.get(k, d)` read. -/
def lookupD {β : Type} (l : List (Nat × β)) (k : Nat) (d : β) : β :=
  (lookupOpt k l).getD d

/-- `COUNT(DISTINCT deck_id)` over the `deck_cards` rows of card `c`. -/
def deckCountOf (db : DB) (c : Nat) : Nat :=
  (((db.deckCards.filter (fun dc => dc.2 = c)).map (fun dc => dc.1)).dedup).length

/-- `_get_cards_above_threshold`'s query:
`SELECT card_id FROM deck_cards GROUP BY card_id
 HAVING COUNT(DISTINCT deck_id) > ?`. -/
def cardsAboveThreshold (db : DB) (threshold : Nat) : List Nat :=
  ((db.deckCards.map (fun dc => dc.2)).dedup).filter
    (fun c => decide (threshold < deckCountOf db c))

/-- The inclusion rate a card receives in `_precompute_inclusion_rates`:
`count / self.num_decks if self.num_decks > 0 else 0.0`, where `count`
is the card's distinct-deck count and `num_decks = COUNT(*) FROM decks`. -/
def inclusionRate (db : DB) (c : Nat) : ℚ :=
  if 0 < db.decks.length then (deckCountOf db c : ℚ) / (db.decks.length : ℚ) else 0

/-- The whole `inclusion_rates_cache` built by
`_precompute_inclusion_rates`: one entry per vocabulary card. -/
def inclusionRatesList (db : DB) (threshold : Nat) : List (Nat × ℚ) :=
  (cardsAboveThreshold db threshold).map (fun c => (c, inclusionRate db c))

/-- The in-memory state of a `TrainingSetCreator` object: the store
handle and the three caches set up by `__init__`. -/
structure CreatorState where
  db : DB
  cardsAboveThresholdCache : List (Nat × List Nat)
  inclusionRatesCache : List (Nat × ℚ)
  conditionalRatesCache : List (Nat × List (Nat × List (Nat × ℚ)))
deriving DecidableEq, Repr

/-- `TrainingSetCreator.__init__`: builds the caches and pre-computes
inclusion rates.  `_precompute_inclusion_rates` first populates the
threshold cache via `_get_cards_above_threshold`, then interpolates the
vocabulary into `WHERE card_id IN (...)`; when the vocabulary is empty
the generated SQL contains an empty `IN ()` list, which SQLite rejects,
so the constructor raises `sqlite3.OperationalError` (modelled as the
`Except.error` below).  `conditional_rates_cache` is initialised empty
and `_precompute_all_conditional_rates` is not called. -/
def TrainingSetCreator.init (db : DB) (inclusionThreshold : Nat) :
    Except String CreatorState :=
  if (cardsAboveThreshold db inclusionThreshold).isEmpty then
    Except.error "sqlite3.OperationalError: near rparen: syntax error"
  else
    Except.ok
      { db := db
        cardsAboveThresholdCache :=
          [(inclusionThreshold, cardsAboveThreshold db inclusionThreshold)]
        inclusionRatesCache := inclusionRatesList db inclusionThreshold
        conditionalRatesCache := [] }

instance : DecidableEq (Except String CreatorState) := fun a b =>
  match a, b with
  | Except.error e1, Except.error e2 =>
    if h : e1 = e2 then isTrue (by rw [h]) else isFalse (by simp [h])
  | Except.ok s1, Except.ok s2 =>
    if h : s1 = s2 then isTrue (by rw [h]) else isFalse (by simp [h])
  | Except.error _, Except.ok _ => isFalse (by simp)
  | Except.ok _, Except.error _ => isFalse (by simp)

/-- `_get_cards_above_threshold`: consult the cache, otherwise run the
query and store the result. -/
def getCardsAboveThreshold (st : CreatorState) (threshold : Nat) :
    List Nat × CreatorState :=
  match lookupOpt threshold st.cardsAboveThresholdCache with
  | some v => (v, st)
  | none =>
    let v := cardsAboveThreshold st.db threshold
    (v, { st with cardsAboveThresholdCache :=
            st.cardsAboveThresholdCache ++ [(threshold, v)] })

/-- `_get_commander_card_pairs_above_threshold`'s query:
`SELECT DISTINCT d.commander_id, dc.card_id FROM decks d JOIN deck_cards
 dc ON d.id = dc.deck_id WHERE dc.card_id IN (vocabulary)`.
The `ORDER BY` clause only affects presentation order and is not
modelled; `dedup` implements `DISTINCT`. -/
def commanderCardPairs (db : DB) (threshold : Nat) : List (Nat × Nat) :=
  ((db.decks.flatMap (fun d =>
      (db.deckCards.filter (fun dc => dc.1 = d.1)).map
        (fun dc => (d.2, dc.2)))).filter
    (fun p => decide (p.2 ∈ cardsAboveThreshold db threshold))).dedup

/-- The commanders appearing in the filtered data, i.e. the key set of
the `commander_cards` dict built by
`_get_all_commander_cards_above_threshold`. -/
def commandersOf (db : DB) (threshold : Nat) : List Nat :=
  ((commanderCardPairs db threshold).map (fun p => p.1)).dedup

/-- The card list a commander maps to in the `commander_cards` dict:
all vocabulary cards paired with that commander (the query returns
`DISTINCT` rows, so there are no duplicates). -/
def cardsOfCommander (db : DB) (threshold : Nat) (K : Nat) : List Nat :=
  ((commanderCardPairs db threshold).filter (fun p => p.1 = K)).map
    (fun p => p.2)

/-- `examples_per_pair`: `torch.min` over the per-commander card-list
lengths, computed once per run.  The source raises on an empty tensor;
the `[]` branch below is a placeholder value for that impossible-to-use
case and is excluded by hypothesis in every theorem about it. -/
def examplesPerPair (db : DB) (threshold : Nat) : Nat :=
  match (commandersOf db threshold).map
      (fun K => (cardsOfCommander db threshold K).length) with
  | [] => 0
  | x :: xs => xs.foldl min x

/-- The scoring function `pmi(conditional_rate, inclusion_rate,
min_conditional_rate=.0001)`:
`conditional_rate = max(conditional_rate, min_conditional_rate);
 return log2(conditional_rate / inclusion_rate)`.
The floor applies to the conditional rate only; the inclusion (marginal)
rate is used as-is.  The Python call sites use the default third
argument `0.0001`, written `1/10000` here. -/
noncomputable def pmi (conditionalRate inclusionRate minConditionalRate : ℝ) : ℝ :=
  Real.logb 2 (max conditionalRate minConditionalRate / inclusionRate)

/-- `_get_conditional_inclusion_rate_cached`: nested dict lookup with
`KeyError` handled as `0.0`. -/
def condLookup (cache : List (Nat × List (Nat × List (Nat × ℚ))))
    (commanderId conditionCardId cardId : Nat) : ℚ :=
  lookupD (lookupD (lookupD cache commanderId []) conditionCardId []) cardId 0

/-- `_get_score`: combine the cached conditional rate (default `0.0`)
with the cached inclusion rate (`dict.get(card_id, 0.0)`) through the
scoring function. -/
noncomputable def scoreOf (st : CreatorState)
    (commanderId conditionCardId targetCardId : Nat) : ℝ :=
  pmi ((condLookup st.conditionalRatesCache commanderId conditionCardId
          targetCardId : ℚ) : ℝ)
      ((lookupD st.inclusionRatesCache targetCardId 0 : ℚ) : ℝ)
      (1 / 10000)

/-- The rows one anchor `(K, c)` contributes in `create_training_set`:
take `examples_per_pair` entries of the shuffled commander card list,
skip draws equal to the condition card (`continue`), and emit a
`(commander, condition, target)` row for each remaining target. -/
def anchorRows (shuffle : Nat → List Nat → List Nat) (epp : Nat)
    (cards : List Nat) (i K c : Nat) : List (Nat × Nat × Nat) :=
  (((shuffle i cards).take epp).filter (fun t => t ≠ c)).map
    (fun t => (K, c, t))

/-- The main loop of `create_training_set` over the enumerated anchor
list, writing rows in order into the output buffer. -/
def buildRows (db : DB) (threshold : Nat)
    (shuffle : Nat → List Nat → List Nat) (epp : Nat) :
    List (Nat × Nat) → Nat → List (Nat × Nat × Nat)
  | [], _ => []
  | p :: ps, i =>
      anchorRows shuffle epp (cardsOfCommander db threshold p.1) i p.1 p.2 ++
      buildRows db threshold shuffle epp ps (i + 1)

/-- The integer rows of the dataset `create_training_set` returns: the
pre-allocated buffer trimmed to the rows actually written. -/
def trainingRows (db : DB) (threshold : Nat)
    (shuffle : Nat → List Nat → List Nat) : List (Nat × Nat × Nat) :=
  buildRows db threshold shuffle (examplesPerPair db threshold)
    (commanderCardPairs db threshold) 0

/-- `create_training_set(threshold)`: the `(data, scores)` pair it
returns.  Neither this method nor the constructor ever calls
`_precompute_all_conditional_rates`, so scores are computed from
whatever `conditional_rates_cache` the state carries (empty after
`__init__`). -/
noncomputable def createTrainingSet (st : CreatorState) (threshold : Nat)
    (shuffle : Nat → List Nat → List Nat) :
    List (Nat × Nat × Nat) × List ℝ :=
  let rows := trainingRows st.db threshold shuffle
  (rows, rows.map (fun r => scoreOf st r.1 r.2.1 r.2.2))

/-!  The bulk conditional-rates query of
`_precompute_all_conditional_rates`. -/

/-- The row set of the query
`FROM decks d JOIN deck_cards dc_condition ON dc_condition.deck_id = d.id
 LEFT JOIN deck_cards dc_target ON dc_target.deck_id = d.id
 WHERE dc_condition.card_id IN (vocabulary)
 AND (dc_target.card_id IN (vocabulary) OR dc_target.card_id IS NULL)`
as `(commander_id, condition_card_id, target_card_id?, deck_id)`
tuples.  The `LEFT JOIN` yields one `NULL`-target row when a deck has no
`deck_cards` rows at all. -/
def condJoinRows (db : DB) (threshold : Nat) :
    List (Nat × Nat × Option Nat × Nat) :=
  let vocab := cardsAboveThreshold db threshold
  (db.decks.flatMap (fun d =>
    (db.deckCards.filter (fun dc => decide (dc.1 = d.1 ∧ dc.2 ∈ vocab))).flatMap
      (fun dcc =>
        let ts := db.deckCards.filter (fun dct => dct.1 = d.1)
        if ts.isEmpty then [(d.2, dcc.2, none, d.1)]
        else ts.map (fun dct => (d.2, dcc.2, some dct.2, d.1))))).filter
    (fun r => match r.2.2.1 with
      | none => true
      | some t => decide (t ∈ vocab))

/-- The rows of one `GROUP BY d.commander_id, dc_condition.card_id,
dc_target.card_id` group. -/
def condGroupRows (db : DB) (threshold : Nat) (K c : Nat) (t : Option Nat) :
    List (Nat × Nat × Option Nat × Nat) :=
  (condJoinRows db threshold).filter
    (fun r => decide (r.1 = K ∧ r.2.1 = c ∧ r.2.2.1 = t))

/-- `COUNT(DISTINCT d.id)` over a `(K, c, t)` group: the value the
query aliases as `denominator`. -/
def condDenominator (db : DB) (threshold K c t : Nat) : Nat :=
  (((condGroupRows db threshold K c (some t)).map
    (fun r => r.2.2.2)).dedup).length

/-- `COUNT(DISTINCT CASE WHEN dc_target.card_id IS NOT NULL THEN d.id
END)` over a `(K, c, t)` group: the value the query aliases as
`numerator`. -/
def condNumerator (db : DB) (threshold K c t : Nat) : Nat :=
  ((((condGroupRows db threshold K c (some t)).filter
      (fun r => decide (r.2.2.1 ≠ none))).map
    (fun r => r.2.2.2)).dedup).length

/-- The entry `conditional_rates_cache[K][c][t]` that
`_precompute_all_conditional_rates` stores (`none` when the group is
absent, i.e. the query returned no `(K, c, t)` row): the stored rate is
`numerator / denominator if denominator > 0 else 0.0`. -/
def precomputedConditionalRate (db : DB) (threshold K c t : Nat) :
    Option ℚ :=
  if (condGroupRows db threshold K c (some t)).isEmpty then none
  else some (if 0 < condDenominator db threshold K c t then
      (condNumerator db threshold K c t : ℚ) /
        (condDenominator db threshold K c t : ℚ)
    else 0)

/-- The distinct decks under commander `K` that contain card `c`
(follows the words of the spec, for comparison with the query). -/
def decksUnderWithCard (db : DB) (K c : Nat) : List Nat :=
  ((db.decks.filter (fun d => d.2 = K)).map (fun d => d.1)).filter
    (fun did => decide ((did, c) ∈ db.deckCards))

/-- Follows the words of the spec (the conditional-rate definition the
claims assert): number of distinct decks under commander `K` containing
both `c` and `t`, divided by the number of distinct decks under `K`
containing `c`. -/
def specConditionalRate (db : DB) (K c t : Nat) : ℚ :=
  ((((decksUnderWithCard db K c).filter
      (fun did => decide ((did, t) ∈ db.deckCards))).dedup).length : ℚ) /
    (((decksUnderWithCard db K c).dedup).length : ℚ)

/-!  The scraper-side store (`edhrec_scraper.py`). -/

/-- The four tables of the SQLite schema created by `setup_database`:
`commanders (id, name)`, `cards (id, name)`,
`decks (id, commander_id, url_hash)`, `deck_cards (deck_id, card_id)`. -/
structure Store where
  commanders : List (Nat × String)
  cards : List (Nat × String)
  decks : List (Nat × Nat × String)
  deckCards : List (Nat × Nat)
deriving DecidableEq, Repr

/-- A SQLite connection: the committed database plus the uncommitted
working state of the open transaction.  Statements read and write
`pending`; `commit()` publishes `pending` as `committed`. -/
structure Conn where
  committed : Store
  pending : Store
deriving DecidableEq, Repr

/-- `SELECT id FROM table WHERE name = ? ... fetchone()`. -/
def idByName (l : List (Nat × String)) (n : String) : Option Nat :=
  ((l.filter (fun p => p.2 = n)).head?).map (fun p => p.1)

/-- The next `AUTOINCREMENT` rowid. -/
def nextId (ids : List Nat) : Nat := ids.foldr max 0 + 1

/-- `EDHRECScraper._save_decklist(commander_name, deck_url_hash,
decklist)`.  Faithful to the statement order of the source: the
commander row (if new) and the deck row are inserted *before* the
over-99 and duplicate-card validations; each rejection path does a bare
`return` (no commit, no rollback), the success path inserts all cards
and memberships (a duplicate `(deck_id, card_id)` insert raises
`IntegrityError`, which is caught, logged and skipped) and then calls
`self.db_connection.commit()`. -/
def saveDecklist (conn : Conn) (commanderName urlHash : String)
    (decklist : List String) : Conn :=
  let s := conn.pending
  let s := if (idByName s.commanders commanderName).isNone then
      { s with commanders :=
          s.commanders ++ [(nextId (s.commanders.map (fun p => p.1)), commanderName)] }
    else s
  let commanderId := (idByName s.commanders commanderName).getD 0
  let deckId := nextId (s.decks.map (fun d => d.1))
  let s := { s with decks := s.decks ++ [(deckId, commanderId, urlHash)] }
  if decklist.length > 99 then
    { conn with pending := s }
  else if decklist.any (fun card => decklist.count card > 1) then
    { conn with pending := s }
  else
    let s := decklist.foldl (fun (s : Store) cardName =>
      let s := if (idByName s.cards cardName).isNone then
          { s with cards :=
              s.cards ++ [(nextId (s.cards.map (fun p => p.1)), cardName)] }
        else s
      let cardId := (idByName s.cards cardName).getD 0
      if (deckId, cardId) ∈ s.deckCards then s
      else { s with deckCards := s.deckCards ++ [(deckId, cardId)] }) s
    { committed := s, pending := s }

/-!  Basic lemmas about the embedded operations. -/

theorem lookupOpt_append_none {β : Type} {l : List (Nat × β)} {k : Nat}
    (h : lookupOpt k l = none) (v : β) :
    lookupOpt k (l ++ [(k, v)]) = some v := by
  induction l with
  | nil => simp [lookupOpt]
  | cons a es ih =>
    obtain ⟨a1, a2⟩ := a
    by_cases hk : a1 = k
    · simp [lookupOpt, hk] at h
    · simp only [lookupOpt, List.cons_append, if_neg hk] at h ⊢
      exact ih h

theorem lookupOpt_graph {β : Type} (f : Nat → β) {l : List Nat} {c : Nat}
    (h : c ∈ l) : lookupOpt c (l.map (fun x => (x, f x))) = some (f c) := by
  induction l with
  | nil => simp at h
  | cons a es ih =>
    rcases List.mem_cons.mp h with h1 | h2
    · simp [lookupOpt, h1]
    · by_cases ha : a = c
      · simp [lookupOpt, ha]
      · simpa [lookupOpt, ha] using ih h2

theorem deckCountOf_eq_zero {db : DB} {c : Nat}
    (h : db.deckCards.filter (fun dc => decide (dc.2 = c)) = []) :
    deckCountOf db c = 0 := by
  simp [deckCountOf, h]

theorem mem_cardsAboveThreshold {db : DB} {threshold c : Nat} :
    c ∈ cardsAboveThreshold db threshold ↔ threshold < deckCountOf db c := by
  constructor
  · intro h
    simp only [cardsAboveThreshold, List.mem_filter, decide_eq_true_eq] at h
    exact h.2
  · intro h
    simp only [cardsAboveThreshold, List.mem_filter, List.mem_dedup,
      List.mem_map, decide_eq_true_eq]
    refine ⟨?_, h⟩
    by_contra hc
    push_neg at hc
    have hnil : db.deckCards.filter (fun dc => decide (dc.2 = c)) = [] := by
      rw [List.filter_eq_nil_iff]
      intro dc hdc
      simpa using fun hdc2 => hc dc hdc hdc2
    rw [deckCountOf_eq_zero hnil] at h
    exact Nat.not_lt_zero _ h

theorem cardsAboveThreshold_antitone {db : DB} {t1 t2 c : Nat}
    (h12 : t1 ≤ t2) (h : c ∈ cardsAboveThreshold db t2) :
    c ∈ cardsAboveThreshold db t1 :=
  mem_cardsAboveThreshold.mpr
    (lt_of_le_of_lt h12 (mem_cardsAboveThreshold.mp h))

theorem mem_commanderCardPairs_vocab {db : DB} {threshold : Nat}
    {p : Nat × Nat} (h : p ∈ commanderCardPairs db threshold) :
    p.2 ∈ cardsAboveThreshold db threshold := by
  simp only [commanderCardPairs, List.mem_dedup, List.mem_filter,
    decide_eq_true_eq] at h
  exact h.2

theorem mem_cardsOfCommander_vocab {db : DB} {threshold K x : Nat}
    (h : x ∈ cardsOfCommander db threshold K) :
    x ∈ cardsAboveThreshold db threshold := by
  simp only [cardsOfCommander, List.mem_map, List.mem_filter] at h
  obtain ⟨p, ⟨hp, _⟩, hpx⟩ := h
  exact hpx ▸ mem_commanderCardPairs_vocab hp

/-!  Claim C5 (scorer monotonicity) and claim C6 (scorer formula). -/

/-- Claim C5, counterexample: the claim quantifies over *all* pairs
`r1 < r2` in `[0, 1]`, but any two conditional rates below the floor
`0.0001` are both floored and score identically.  At `m = 1/2`,
`r1 = 0`, `r2 = 1/20000` all the claim's hypotheses hold, yet the two
scores are equal, so the strict inequality fails. -/
theorem pmi_not_strictly_monotone_below_floor :
    (0 : ℝ) < 1 / 2 ∧ (0 : ℝ) < 1 / 20000 ∧ (1 / 20000 : ℝ) ≤ 1 ∧
    pmi 0 (1 / 2) (1 / 10000) = pmi (1 / 20000) (1 / 2) (1 / 10000) ∧
    ¬ pmi 0 (1 / 2) (1 / 10000) < pmi (1 / 20000) (1 / 2) (1 / 10000) := by
  have hz : max (0 : ℝ) (1 / 10000) = 1 / 10000 :=
    max_eq_right (by norm_num)
  have hs : max (1 / 20000 : ℝ) (1 / 10000) = 1 / 10000 :=
    max_eq_right (by norm_num)
  have heq : pmi 0 (1 / 2) (1 / 10000) = pmi (1 / 20000) (1 / 2) (1 / 10000) := by
    unfold pmi
    rw [hz, hs]
  exact ⟨by norm_num, by norm_num, by norm_num, heq, by rw [heq]; exact lt_irrefl _⟩

/-- Claim C5, amended: for a fixed marginal rate `m > 0`, increasing
the conditional rate strictly increases the PMI score, provided the
smaller rate is at least the floor `0.0001` (rates below the floor are
clamped to it, where the score is constant in the conditional rate). -/
theorem pmi_strictly_monotone_above_floor (m r1 r2 : ℝ) (hm : 0 < m)
    (hfloor : 1 / 10000 ≤ r1) (h12 : r1 < r2) (h2 : r2 ≤ 1) :
    pmi r1 m (1 / 10000) < pmi r2 m (1 / 10000) := by
  unfold pmi
  rw [max_eq_left hfloor, max_eq_left (hfloor.trans h12.le)]
  have hr1 : (0 : ℝ) < r1 := lt_of_lt_of_le (by norm_num) hfloor
  refine Real.logb_lt_logb (by norm_num) (div_pos hr1 hm) ?_
  gcongr

/-- Witness for the amended claim C5 at `m = 1/2`, `r1 = 1/4`,
`r2 = 1/2`. -/
theorem pmi_strictly_monotone_above_floor_witness :
    pmi (1 / 4) (1 / 2) (1 / 10000) < pmi (1 / 2) (1 / 2) (1 / 10000) :=
  pmi_strictly_monotone_above_floor (1 / 2) (1 / 4) (1 / 2)
    (by norm_num) (by norm_num) (by norm_num) (by norm_num)

/-- Claim C6: for every marginal rate `m > 0` and conditional rate
`r ∈ [0, 1]`, the score is `log2(max(r, 0.0001) / m)` — the floor is
applied to the conditional rate only, the marginal rate is used
unfloored — and a conditional rate of `0` scores exactly like a
conditional rate of `0.0001`. -/
theorem pmi_formula_and_floor (m r : ℝ) (hm : 0 < m) (hr0 : 0 ≤ r)
    (hr1 : r ≤ 1) :
    pmi r m (1 / 10000) = Real.logb 2 (max r (1 / 10000) / m) ∧
    pmi 0 m (1 / 10000) = pmi (1 / 10000) m (1 / 10000) := by
  refine ⟨rfl, ?_⟩
  unfold pmi
  rw [max_eq_right (by norm_num : (0 : ℝ) ≤ 1 / 10000), max_self]

/-- Witness for claim C6 at `m = 1/2`, `r = 1/2`. -/
theorem pmi_formula_and_floor_witness :
    pmi (1 / 2) (1 / 2) (1 / 10000) =
      Real.logb 2 (max (1 / 2) (1 / 10000) / (1 / 2)) ∧
    pmi 0 (1 / 2) (1 / 10000) = pmi (1 / 10000) (1 / 2) (1 / 10000) :=
  pmi_formula_and_floor (1 / 2) (1 / 2) (by norm_num) (by norm_num)
    (by norm_num)

/-!  Claim C9 (threshold filter and its cache) and claim C10
(inclusion rates). -/

theorem init_ok {db : DB} {inclusionThreshold : Nat} {st : CreatorState}
    (h : TrainingSetCreator.init db inclusionThreshold = Except.ok st) :
    st.db = db ∧
    st.cardsAboveThresholdCache =
      [(inclusionThreshold, cardsAboveThreshold db inclusionThreshold)] ∧
    st.inclusionRatesCache = inclusionRatesList db inclusionThreshold ∧
    st.conditionalRatesCache = [] := by
  unfold TrainingSetCreator.init at h
  by_cases he : (cardsAboveThreshold db inclusionThreshold).isEmpty
  · rw [if_pos he] at h
    exact absurd h (by simp)
  · rw [if_neg he] at h
    cases h
    exact ⟨rfl, rfl, rfl, rfl⟩

/-- Claim C9: after construction, `_get_cards_above_threshold(T)`
returns exactly the cards whose distinct-deck count strictly exceeds
`T` (a card in exactly `T` decks is excluded), and a repeated call with
the same `T` returns the cached result and leaves the state unchanged. -/
theorem cards_above_threshold_correct_and_cached
    (db : DB) (inclusionThreshold : Nat) (st : CreatorState)
    (hst : TrainingSetCreator.init db inclusionThreshold = Except.ok st)
    (threshold : Nat) :
    (∀ c, c ∈ (getCardsAboveThreshold st threshold).1 ↔
        threshold < deckCountOf db c) ∧
    getCardsAboveThreshold ((getCardsAboveThreshold st threshold).2) threshold =
      getCardsAboveThreshold st threshold := by
  obtain ⟨hdb, hcache, -, -⟩ := init_ok hst
  constructor
  · intro c
    unfold getCardsAboveThreshold
    rw [hcache, hdb]
    by_cases hT : inclusionThreshold = threshold
    · subst hT
      simp only [lookupOpt, if_pos rfl]
      exact mem_cardsAboveThreshold
    · simp only [lookupOpt, if_neg hT]
      exact mem_cardsAboveThreshold
  · unfold getCardsAboveThreshold
    rcases hlk : lookupOpt threshold st.cardsAboveThresholdCache with _ | v
    · simp only [hlk]
      rw [lookupOpt_append_none hlk]
    · simp only [hlk]

/-- Witness for claim C9 on a concrete two-card store at `T = 0`. -/
theorem cards_above_threshold_correct_and_cached_witness :
    (100 ∈ (getCardsAboveThreshold
        ⟨⟨[(1, 10)], [(1, 100), (1, 200)]⟩,
         [(0, cardsAboveThreshold ⟨[(1, 10)], [(1, 100), (1, 200)]⟩ 0)],
         inclusionRatesList ⟨[(1, 10)], [(1, 100), (1, 200)]⟩ 0, []⟩ 0).1 ↔
      0 < deckCountOf ⟨[(1, 10)], [(1, 100), (1, 200)]⟩ 100) :=
  (cards_above_threshold_correct_and_cached
    ⟨[(1, 10)], [(1, 100), (1, 200)]⟩ 0
    ⟨⟨[(1, 10)], [(1, 100), (1, 200)]⟩,
     [(0, cardsAboveThreshold ⟨[(1, 10)], [(1, 100), (1, 200)]⟩ 0)],
     inclusionRatesList ⟨[(1, 10)], [(1, 100), (1, 200)]⟩ 0, []⟩
    (by unfold TrainingSetCreator.init
        rw [if_neg (by decide)]) 0).1 100

theorem deckCountOf_le_decks {db : DB} (hwf : db.WF) (c : Nat) :
    deckCountOf db c ≤ db.decks.length := by
  obtain ⟨hdecks, -, href⟩ := hwf
  unfold deckCountOf
  have h1 : ((db.deckCards.filter (fun dc => dc.2 = c)).map
      (fun dc => dc.1)).toFinset ⊆ (db.decks.map (fun d => d.1)).toFinset := by
    intro x hx
    rw [List.mem_toFinset] at hx ⊢
    simp only [List.mem_map] at hx
    obtain ⟨dc, hdc, hdcx⟩ := hx
    exact hdcx ▸ href dc (List.mem_of_mem_filter hdc)
  have h2 := Finset.card_le_card h1
  rw [List.card_toFinset, List.card_toFinset,
    List.dedup_eq_self.mpr hdecks, List.length_map] at h2
  exact h2

/-- The inclusion rate a vocabulary card gets from the cache built by
`_precompute_inclusion_rates`. -/
theorem inclusionRatesList_lookup {db : DB} {threshold c : Nat}
    (h : c ∈ cardsAboveThreshold db threshold) :
    lookupD (inclusionRatesList db threshold) c 0 = inclusionRate db c := by
  unfold lookupD inclusionRatesList
  rw [lookupOpt_graph (inclusionRate db) h]
  rfl

/-- Claim C10: for every card in the vocabulary, the cached inclusion
rate equals (distinct decks containing it) / (total decks), lies in
`[0, 1]`, and is the guarded value `0` rather than a division-by-zero
fault when the total deck count is `0`. -/
theorem inclusion_rates_in_unit_interval
    (db : DB) (inclusionThreshold : Nat) (st : CreatorState)
    (hst : TrainingSetCreator.init db inclusionThreshold = Except.ok st)
    (hwf : db.WF) :
    ∀ c ∈ cardsAboveThreshold db inclusionThreshold,
      lookupD st.inclusionRatesCache c 0 = inclusionRate db c ∧
      (0 < db.decks.length →
        inclusionRate db c =
          (deckCountOf db c : ℚ) / (db.decks.length : ℚ)) ∧
      0 ≤ inclusionRate db c ∧ inclusionRate db c ≤ 1 ∧
      (db.decks.length = 0 → inclusionRate db c = 0) := by
  obtain ⟨-, -, hincl, -⟩ := init_ok hst
  intro c hc
  refine ⟨hincl ▸ inclusionRatesList_lookup hc, ?_, ?_, ?_, ?_⟩
  · intro hpos
    unfold inclusionRate
    rw [if_pos hpos]
  · unfold inclusionRate
    split
    · exact div_nonneg (Nat.cast_nonneg _) (Nat.cast_nonneg _)
    · exact le_refl 0
  · unfold inclusionRate
    split
    · rename_i hpos
      rw [div_le_one (by exact_mod_cast hpos)]
      exact_mod_cast deckCountOf_le_decks hwf c
    · exact zero_le_one
  · intro hzero
    unfold inclusionRate
    rw [if_neg (by omega)]

/-- Witness for claim C10 on a concrete one-deck store at `T = 0` and
card `100`. -/
theorem inclusion_rates_in_unit_interval_witness :
    lookupD (⟨⟨[(1, 10)], [(1, 100), (1, 200)]⟩,
        [(0, cardsAboveThreshold ⟨[(1, 10)], [(1, 100), (1, 200)]⟩ 0)],
        inclusionRatesList ⟨[(1, 10)], [(1, 100), (1, 200)]⟩ 0,
        []⟩ : CreatorState).inclusionRatesCache 100 0 =
      inclusionRate ⟨[(1, 10)], [(1, 100), (1, 200)]⟩ 100 ∧
    (0 < (⟨[(1, 10)], [(1, 100), (1, 200)]⟩ : DB).decks.length →
      inclusionRate ⟨[(1, 10)], [(1, 100), (1, 200)]⟩ 100 =
        (deckCountOf ⟨[(1, 10)], [(1, 100), (1, 200)]⟩ 100 : ℚ) /
          ((⟨[(1, 10)], [(1, 100), (1, 200)]⟩ : DB).decks.length : ℚ)) ∧
    0 ≤ inclusionRate ⟨[(1, 10)], [(1, 100), (1, 200)]⟩ 100 ∧
    inclusionRate ⟨[(1, 10)], [(1, 100), (1, 200)]⟩ 100 ≤ 1 ∧
    ((⟨[(1, 10)], [(1, 100), (1, 200)]⟩ : DB).decks.length = 0 →
      inclusionRate ⟨[(1, 10)], [(1, 100), (1, 200)]⟩ 100 = 0) :=
  inclusion_rates_in_unit_interval ⟨[(1, 10)], [(1, 100), (1, 200)]⟩ 0
    ⟨⟨[(1, 10)], [(1, 100), (1, 200)]⟩,
     [(0, cardsAboveThreshold ⟨[(1, 10)], [(1, 100), (1, 200)]⟩ 0)],
     inclusionRatesList ⟨[(1, 10)], [(1, 100), (1, 200)]⟩ 0, []⟩
    (by unfold TrainingSetCreator.init
        rw [if_neg (by decide)])
    (by decide) 100 (by decide)

/-!  Claims C7 and C8: the sampler/assembler. -/

theorem foldl_min_mem : ∀ (xs : List Nat) (x : Nat),
    xs.foldl min x ∈ x :: xs := by
  intro xs
  induction xs with
  | nil => intro x; simp
  | cons y ys ih =>
    intro x
    simp only [List.foldl_cons]
    have h := ih (min x y)
    rcases List.mem_cons.mp h with h1 | h2
    · rcases min_choice x y with hm | hm
      · rw [h1, hm]
        exact List.mem_cons_self _ _
      · rw [h1, hm]
        exact List.mem_cons_of_mem _ (List.mem_cons_self _ _)
    · exact List.mem_cons_of_mem _ (List.mem_cons_of_mem _ h2)

theorem foldl_min_le : ∀ (xs : List Nat) (x : Nat),
    ∀ y ∈ x :: xs, xs.foldl min x ≤ y := by
  intro xs
  induction xs with
  | nil =>
    intro x y hy
    rw [List.mem_singleton] at hy
    exact hy ▸ le_refl x
  | cons z zs ih =>
    intro x y hy
    simp only [List.foldl_cons]
    rcases List.mem_cons.mp hy with h1 | h2
    · rw [h1]
      exact (ih (min x z) _ (List.mem_cons_self _ _)).trans (min_le_left x z)
    · rcases List.mem_cons.mp h2 with h3 | h4
      · rw [h3]
        exact (ih (min x z) _ (List.mem_cons_self _ _)).trans (min_le_right x z)
      · exact ih (min x z) y (List.mem_cons_of_mem _ h4)

theorem examplesPerPair_spec {db : DB} {threshold : Nat}
    (hne : commandersOf db threshold ≠ []) :
    examplesPerPair db threshold ∈ (commandersOf db threshold).map
        (fun K => (cardsOfCommander db threshold K).length) ∧
    ∀ K ∈ commandersOf db threshold,
      examplesPerPair db threshold ≤ (cardsOfCommander db threshold K).length := by
  unfold examplesPerPair
  rcases hL : (commandersOf db threshold).map
      (fun K => (cardsOfCommander db threshold K).length) with _ | ⟨x, xs⟩
  · exact absurd (List.map_eq_nil_iff.mp hL) hne
  · constructor
    · exact foldl_min_mem xs x
    · intro K hK
      have hmem : (cardsOfCommander db threshold K).length ∈ x :: xs := by
        rw [← hL]
        exact List.mem_map_of_mem _ hK
      exact foldl_min_le xs x _ hmem

theorem anchorRows_mem {shuffle : Nat → List Nat → List Nat} {epp : Nat}
    {cards : List Nat} {i K c : Nat} {r : Nat × Nat × Nat}
    (h : r ∈ anchorRows shuffle epp cards i K c) :
    r.1 = K ∧ r.2.1 = c ∧ r.2.2 ≠ c ∧ r.2.2 ∈ shuffle i cards := by
  simp only [anchorRows, List.mem_map, List.mem_filter,
    decide_eq_true_eq] at h
  obtain ⟨t, ⟨ht, htc⟩, hr⟩ := h
  subst hr
  exact ⟨rfl, rfl, htc, List.mem_of_mem_take ht⟩

theorem anchorRows_length_le (shuffle : Nat → List Nat → List Nat)
    (epp : Nat) (cards : List Nat) (i K c : Nat) :
    (anchorRows shuffle epp cards i K c).length ≤ epp := by
  unfold anchorRows
  rw [List.length_map]
  calc (((shuffle i cards).take epp).filter (fun t => t ≠ c)).length
      ≤ ((shuffle i cards).take epp).length := List.length_filter_le _ _
    _ ≤ epp := by rw [List.length_take]; exact min_le_left _ _

theorem buildRows_length_le (db : DB) (threshold : Nat)
    (shuffle : Nat → List Nat → List Nat) (epp : Nat) :
    ∀ (ps : List (Nat × Nat)) (i : Nat),
      (buildRows db threshold shuffle epp ps i).length ≤ ps.length * epp := by
  intro ps
  induction ps with
  | nil => intro i; simp [buildRows]
  | cons p ps ih =>
    intro i
    simp only [buildRows, List.length_append, List.length_cons, Nat.succ_mul]
    have h1 := anchorRows_length_le shuffle epp
      (cardsOfCommander db threshold p.1) i p.1 p.2
    have h2 := ih (i + 1)
    omega

/-- Claim C7: `examples_per_pair` is the minimum, over the commanders
appearing in the filtered data, of the number of vocabulary cards
associated with that commander (it is attained and is a lower bound),
and the dataset returned by `create_training_set` has at most
`len(pairs) * examples_per_pair` rows. -/
theorem examples_per_pair_min_and_dataset_bound
    (st : CreatorState) (threshold : Nat)
    (shuffle : Nat → List Nat → List Nat)
    (hne : commandersOf st.db threshold ≠ []) :
    examplesPerPair st.db threshold ∈ (commandersOf st.db threshold).map
        (fun K => (cardsOfCommander st.db threshold K).length) ∧
    (∀ K ∈ commandersOf st.db threshold,
      examplesPerPair st.db threshold ≤
        (cardsOfCommander st.db threshold K).length) ∧
    (createTrainingSet st threshold shuffle).1.length ≤
      (commanderCardPairs st.db threshold).length *
        examplesPerPair st.db threshold := by
  obtain ⟨h1, h2⟩ := examplesPerPair_spec hne
  exact ⟨h1, h2, buildRows_length_le st.db threshold shuffle _ _ 0⟩

/-- Witness for claim C7 on a concrete one-commander store. -/
theorem examples_per_pair_min_and_dataset_bound_witness :
    examplesPerPair ⟨[(1, 10)], [(1, 100), (1, 200)]⟩ 0 ∈
      (commandersOf ⟨[(1, 10)], [(1, 100), (1, 200)]⟩ 0).map
        (fun K =>
          (cardsOfCommander ⟨[(1, 10)], [(1, 100), (1, 200)]⟩ 0 K).length) ∧
    (∀ K ∈ commandersOf ⟨[(1, 10)], [(1, 100), (1, 200)]⟩ 0,
      examplesPerPair ⟨[(1, 10)], [(1, 100), (1, 200)]⟩ 0 ≤
        (cardsOfCommander ⟨[(1, 10)], [(1, 100), (1, 200)]⟩ 0 K).length) ∧
    (createTrainingSet
        ⟨⟨[(1, 10)], [(1, 100), (1, 200)]⟩, [], [], []⟩ 0
        (fun _ l => l)).1.length ≤
      (commanderCardPairs ⟨[(1, 10)], [(1, 100), (1, 200)]⟩ 0).length *
        examplesPerPair ⟨[(1, 10)], [(1, 100), (1, 200)]⟩ 0 :=
  examples_per_pair_min_and_dataset_bound
    ⟨⟨[(1, 10)], [(1, 100), (1, 200)]⟩, [], [], []⟩ 0 (fun _ l => l)
    (by decide)

theorem buildRows_no_self (db : DB) (threshold : Nat)
    (shuffle : Nat → List Nat → List Nat) (epp : Nat) :
    ∀ (ps : List (Nat × Nat)) (i : Nat) (r : Nat × Nat × Nat),
      r ∈ buildRows db threshold shuffle epp ps i → r.2.1 ≠ r.2.2 := by
  intro ps
  induction ps with
  | nil => intro i r hr; simp [buildRows] at hr
  | cons q qs ih =>
    intro i r hr
    simp only [buildRows, List.mem_append] at hr
    rcases hr with h | h
    · obtain ⟨-, hb, hc, -⟩ := anchorRows_mem h
      rw [hb]
      exact Ne.symm hc
    · exact ih (i + 1) r h

theorem buildRows_filter_not_mem (db : DB) (threshold : Nat)
    (shuffle : Nat → List Nat → List Nat) (epp : Nat) :
    ∀ (ps : List (Nat × Nat)) (i : Nat) (p : Nat × Nat), p ∉ ps →
      (buildRows db threshold shuffle epp ps i).filter
        (fun r => decide (r.1 = p.1 ∧ r.2.1 = p.2)) = [] := by
  intro ps
  induction ps with
  | nil => intro i p _; simp [buildRows]
  | cons q qs ih =>
    intro i p hp
    simp only [buildRows, List.filter_append]
    have hhead : (anchorRows shuffle epp (cardsOfCommander db threshold q.1)
        i q.1 q.2).filter (fun r => decide (r.1 = p.1 ∧ r.2.1 = p.2)) = [] := by
      rw [List.filter_eq_nil_iff]
      intro r hr
      obtain ⟨ha, hb, -, -⟩ := anchorRows_mem hr
      simp only [decide_eq_true_eq, not_and]
      intro hpa hpb
      have hpq : p = q := Prod.ext_iff.mpr ⟨by rw [← hpa, ha], by rw [← hpb, hb]⟩
      exact absurd (hpq ▸ List.mem_cons_self q qs) hp
    rw [hhead, List.nil_append]
    exact ih (i + 1) p (fun h => hp (List.mem_cons_of_mem _ h))

theorem buildRows_filter_block (db : DB) (threshold : Nat)
    (shuffle : Nat → List Nat → List Nat) (epp : Nat) :
    ∀ (ps : List (Nat × Nat)) (i : Nat), ps.Nodup → ∀ p ∈ ps,
      ∃ j, (buildRows db threshold shuffle epp ps i).filter
          (fun r => decide (r.1 = p.1 ∧ r.2.1 = p.2)) =
        anchorRows shuffle epp (cardsOfCommander db threshold p.1) j p.1 p.2 := by
  intro ps
  induction ps with
  | nil => intro i _ p hp; simp at hp
  | cons q qs ih =>
    intro i hnd p hp
    rw [List.nodup_cons] at hnd
    simp only [buildRows, List.filter_append]
    rcases List.mem_cons.mp hp with h1 | h2
    · refine ⟨i, ?_⟩
      have hrest : (buildRows db threshold shuffle epp qs (i + 1)).filter
          (fun r => decide (r.1 = p.1 ∧ r.2.1 = p.2)) = [] :=
        buildRows_filter_not_mem db threshold shuffle epp qs (i + 1) p
          (h1 ▸ hnd.1)
      have hhead : (anchorRows shuffle epp (cardsOfCommander db threshold q.1)
          i q.1 q.2).filter (fun r => decide (r.1 = p.1 ∧ r.2.1 = p.2)) =
          anchorRows shuffle epp (cardsOfCommander db threshold q.1) i q.1 q.2 := by
        rw [List.filter_eq_self]
        intro r hr
        obtain ⟨ha, hb, -, -⟩ := anchorRows_mem hr
        simp [ha, hb, h1]
      rw [hrest, hhead, List.append_nil, h1]
    · obtain ⟨j, hj⟩ := ih (i + 1) hnd.2 p h2
      refine ⟨j, ?_⟩
      have hhead : (anchorRows shuffle epp (cardsOfCommander db threshold q.1)
          i q.1 q.2).filter (fun r => decide (r.1 = p.1 ∧ r.2.1 = p.2)) = [] := by
        rw [List.filter_eq_nil_iff]
        intro r hr
        obtain ⟨ha, hb, -, -⟩ := anchorRows_mem hr
        simp only [decide_eq_true_eq, not_and]
        intro hpa hpb
        have hpq : p = q := Prod.ext_iff.mpr ⟨by rw [← hpa, ha], by rw [← hpb, hb]⟩
        exact absurd (hpq ▸ h2) hnd.1
      rw [hhead, List.nil_append]
      exact hj

/-- Claim C8: the dataset has no self-pair rows (condition card equal
to target card), and for each anchor `(K, c)` of the run, the rows it
produced are exactly the non-self draws among the first
`examples_per_pair` entries of its shuffled card list — so skipped
self-draws are not re-drawn and the realized per-anchor count is at
most (never padded back up to) `examples_per_pair`. -/
theorem no_self_pairs_and_quota_not_padded
    (st : CreatorState) (threshold : Nat)
    (shuffle : Nat → List Nat → List Nat) :
    (∀ r ∈ (createTrainingSet st threshold shuffle).1, r.2.1 ≠ r.2.2) ∧
    (∀ p ∈ commanderCardPairs st.db threshold,
      ∃ j, (createTrainingSet st threshold shuffle).1.filter
            (fun r => decide (r.1 = p.1 ∧ r.2.1 = p.2)) =
          anchorRows shuffle (examplesPerPair st.db threshold)
            (cardsOfCommander st.db threshold p.1) j p.1 p.2 ∧
        ((createTrainingSet st threshold shuffle).1.filter
            (fun r => decide (r.1 = p.1 ∧ r.2.1 = p.2))).length ≤
          examplesPerPair st.db threshold) := by
  have hfst : (createTrainingSet st threshold shuffle).1 =
      buildRows st.db threshold shuffle (examplesPerPair st.db threshold)
        (commanderCardPairs st.db threshold) 0 := rfl
  constructor
  · intro r hr
    rw [hfst] at hr
    exact buildRows_no_self st.db threshold shuffle _ _ 0 r hr
  · intro p hp
    obtain ⟨j, hj⟩ := buildRows_filter_block st.db threshold shuffle
      (examplesPerPair st.db threshold) (commanderCardPairs st.db threshold) 0
      (List.nodup_dedup _) p hp
    rw [hfst, hj]
    exact ⟨j, rfl, anchorRows_length_le _ _ _ _ _ _⟩

/-- Witness for claim C8 on a concrete one-commander store: the row
`(10, 100, 200)` of the produced dataset has distinct condition and
target cards, and the anchor `(10, 100)` contributed exactly its
non-self draws. -/
theorem no_self_pairs_and_quota_not_padded_witness :
    ((10, 100, 200) : Nat × Nat × Nat).2.1 ≠
      ((10, 100, 200) : Nat × Nat × Nat).2.2 ∧
    (∃ j, (createTrainingSet ⟨⟨[(1, 10)], [(1, 100), (1, 200)]⟩, [], [], []⟩ 0
            (fun _ l => l)).1.filter
          (fun r => decide (r.1 = ((10, 100) : Nat × Nat).1 ∧
            r.2.1 = ((10, 100) : Nat × Nat).2)) =
        anchorRows (fun _ l => l)
          (examplesPerPair ⟨[(1, 10)], [(1, 100), (1, 200)]⟩ 0)
          (cardsOfCommander ⟨[(1, 10)], [(1, 100), (1, 200)]⟩ 0
            ((10, 100) : Nat × Nat).1) j ((10, 100) : Nat × Nat).1
          ((10, 100) : Nat × Nat).2 ∧
      ((createTrainingSet ⟨⟨[(1, 10)], [(1, 100), (1, 200)]⟩, [], [], []⟩ 0
            (fun _ l => l)).1.filter
          (fun r => decide (r.1 = ((10, 100) : Nat × Nat).1 ∧
            r.2.1 = ((10, 100) : Nat × Nat).2))).length ≤
        examplesPerPair ⟨[(1, 10)], [(1, 100), (1, 200)]⟩ 0) :=
  ⟨(no_self_pairs_and_quota_not_padded
      ⟨⟨[(1, 10)], [(1, 100), (1, 200)]⟩, [], [], []⟩ 0 (fun _ l => l)).1
    (10, 100, 200) (by decide),
   (no_self_pairs_and_quota_not_padded
      ⟨⟨[(1, 10)], [(1, 100), (1, 200)]⟩, [], [], []⟩ 0 (fun _ l => l)).2
    (10, 100) (by decide)⟩

/-!  Claim C2: the conditional-rate cache is never populated, so every
emitted score ignores co-occurrence data. -/

theorem condLookup_empty (commanderId conditionCardId cardId : Nat) :
    condLookup [] commanderId conditionCardId cardId = 0 := rfl

theorem buildRows_target_vocab {db : DB} {threshold : Nat}
    {shuffle : Nat → List Nat → List Nat} {epp : Nat}
    (hsh : ∀ i l, ∀ x ∈ shuffle i l, x ∈ l) :
    ∀ (ps : List (Nat × Nat)) (i : Nat) (r : Nat × Nat × Nat),
      r ∈ buildRows db threshold shuffle epp ps i →
      r.2.2 ∈ cardsAboveThreshold db threshold := by
  intro ps
  induction ps with
  | nil => intro i r hr; simp [buildRows] at hr
  | cons q qs ih =>
    intro i r hr
    simp only [buildRows, List.mem_append] at hr
    rcases hr with h | h
    · obtain ⟨-, -, -, hmem⟩ := anchorRows_mem h
      exact mem_cardsOfCommander_vocab (hsh i _ _ hmem)
    · exact ih (i + 1) r h

/-- Claim C2: in every run of `create_training_set` on a
constructor-built state (the conditional-rate cache is empty because
`_precompute_all_conditional_rates` is never called), every conditional
lookup falls through to the `0.0` default and every emitted score is
`log2(0.0001 / inclusion_rate(target))`, independent of co-occurrence
data.  `inclusionThreshold ≤ threshold` reflects the two entry points
(constructor default `100` vs `create_training_set` default `500`; the
script uses `500`/`500`), which guarantees every sampled target has a
cached inclusion rate. -/
theorem create_training_set_scores_ignore_conditional_cache
    (db : DB) (inclusionThreshold threshold : Nat) (st : CreatorState)
    (hst : TrainingSetCreator.init db inclusionThreshold = Except.ok st)
    (hle : inclusionThreshold ≤ threshold)
    (shuffle : Nat → List Nat → List Nat)
    (hsh : ∀ i l, ∀ x ∈ shuffle i l, x ∈ l) :
    st.conditionalRatesCache = [] ∧
    (createTrainingSet st threshold shuffle).2 =
      (createTrainingSet st threshold shuffle).1.map
        (fun r => Real.logb 2
          ((1 / 10000 : ℝ) / ((inclusionRate db r.2.2 : ℚ) : ℝ))) := by
  obtain ⟨hdb, -, hincl, hcond⟩ := init_ok hst
  refine ⟨hcond, ?_⟩
  have hfst : (createTrainingSet st threshold shuffle).1 =
      buildRows st.db threshold shuffle (examplesPerPair st.db threshold)
        (commanderCardPairs st.db threshold) 0 := rfl
  have hsnd : (createTrainingSet st threshold shuffle).2 =
      (createTrainingSet st threshold shuffle).1.map
        (fun r => scoreOf st r.1 r.2.1 r.2.2) := rfl
  rw [hsnd]
  refine List.map_congr_left ?_
  intro r hr
  have hvocab : r.2.2 ∈ cardsAboveThreshold db inclusionThreshold := by
    rw [hfst] at hr
    exact cardsAboveThreshold_antitone hle
      (hdb ▸ buildRows_target_vocab hsh _ 0 r hr)
  unfold scoreOf
  rw [hcond, condLookup_empty, hincl, inclusionRatesList_lookup hvocab]
  unfold pmi
  rw [Rat.cast_zero, max_eq_right (by norm_num : (0 : ℝ) ≤ 1 / 10000)]

/-- Witness for claim C2 on a concrete one-commander store with the
identity shuffle. -/
theorem create_training_set_scores_ignore_conditional_cache_witness :
    (⟨⟨[(1, 10)], [(1, 100), (1, 200)]⟩,
      [(0, cardsAboveThreshold ⟨[(1, 10)], [(1, 100), (1, 200)]⟩ 0)],
      inclusionRatesList ⟨[(1, 10)], [(1, 100), (1, 200)]⟩ 0,
      []⟩ : CreatorState).conditionalRatesCache = [] ∧
    (createTrainingSet
        ⟨⟨[(1, 10)], [(1, 100), (1, 200)]⟩,
         [(0, cardsAboveThreshold ⟨[(1, 10)], [(1, 100), (1, 200)]⟩ 0)],
         inclusionRatesList ⟨[(1, 10)], [(1, 100), (1, 200)]⟩ 0, []⟩ 0
        (fun _ l => l)).2 =
      (createTrainingSet
        ⟨⟨[(1, 10)], [(1, 100), (1, 200)]⟩,
         [(0, cardsAboveThreshold ⟨[(1, 10)], [(1, 100), (1, 200)]⟩ 0)],
         inclusionRatesList ⟨[(1, 10)], [(1, 100), (1, 200)]⟩ 0, []⟩ 0
        (fun _ l => l)).1.map
        (fun r => Real.logb 2
          ((1 / 10000 : ℝ) /
            ((inclusionRate ⟨[(1, 10)], [(1, 100), (1, 200)]⟩ r.2.2 : ℚ) : ℝ))) :=
  create_training_set_scores_ignore_conditional_cache
    ⟨[(1, 10)], [(1, 100), (1, 200)]⟩ 0 0
    ⟨⟨[(1, 10)], [(1, 100), (1, 200)]⟩,
     [(0, cardsAboveThreshold ⟨[(1, 10)], [(1, 100), (1, 200)]⟩ 0)],
     inclusionRatesList ⟨[(1, 10)], [(1, 100), (1, 200)]⟩ 0, []⟩
    (by unfold TrainingSetCreator.init
        rw [if_neg (by decide)])
    (le_refl 0) (fun _ l => l) (fun _ _ _ h => h)

/-!  Claim C1: the bulk conditional-rates query.  Because the `GROUP BY`
clause includes `dc_target.card_id`, the `COUNT(DISTINCT d.id)` aliased
`denominator` is evaluated inside each `(commander, condition, target)`
group, i.e. over the decks containing *both* cards, so every stored
rate equals `1` whenever the combination occurs at all.  Claim C3: the
deck row of a rejected decklist is inserted before validation and is
committed by the next successful save.  Claim C4: an empty vocabulary
makes the constructor interpolate an empty `IN ()` list, which SQLite
rejects with a syntax error. -/

/-- Claim C1, evaluation at a failing input: commander `10` owns decks
`1` (cards `100`, `200`) and `2` (card `100`); the claim says
`conditional_rates_cache[10][100][200]` is `1/2` (one of the two decks
containing `100` also contains `200`), but the query stores `1`. -/
theorem conditional_rates_query_stores_one :
    precomputedConditionalRate
        ⟨[(1, 10), (2, 10)], [(1, 100), (1, 200), (2, 100)]⟩ 0 10 100 200 =
      some 1 ∧
    specConditionalRate
        ⟨[(1, 10), (2, 10)], [(1, 100), (1, 200), (2, 100)]⟩ 10 100 200 =
      1 / 2 ∧
    (1 : ℚ) ≠ 1 / 2 := by
  refine ⟨?_, ?_, by norm_num⟩
  · unfold precomputedConditionalRate
    rw [show (condGroupRows
        ⟨[(1, 10), (2, 10)], [(1, 100), (1, 200), (2, 100)]⟩ 0 10 100
        (some 200)).isEmpty = false from by decide]
    rw [show condDenominator
        ⟨[(1, 10), (2, 10)], [(1, 100), (1, 200), (2, 100)]⟩ 0 10 100 200 = 1
      from by decide]
    rw [show condNumerator
        ⟨[(1, 10), (2, 10)], [(1, 100), (1, 200), (2, 100)]⟩ 0 10 100 200 = 1
      from by decide]
    norm_num
  · unfold specConditionalRate
    rw [show ((((decksUnderWithCard
        ⟨[(1, 10), (2, 10)], [(1, 100), (1, 200), (2, 100)]⟩ 10 100).filter
        (fun did => decide ((did, 200) ∈
          (⟨[(1, 10), (2, 10)], [(1, 100), (1, 200), (2, 100)]⟩ : DB).deckCards))).dedup).length : ℕ) = 1
      from by decide]
    rw [show (((decksUnderWithCard
        ⟨[(1, 10), (2, 10)], [(1, 100), (1, 200), (2, 100)]⟩ 10 100).dedup).length : ℕ) = 2
      from by decide]
    norm_num

/-- A decklist of 100 distinct card names (one over the 99-card
limit). -/
def bigDecklist : List String :=
  (List.range 100).map (fun n => String.mk [Char.ofNat (65 + n)])

/-- An empty store, then an over-limit deck `"h1"`, then a valid
one-card deck `"h2"` for the same commander. -/
def connAfterRejectedThenGood : Conn :=
  saveDecklist
    (saveDecklist ⟨⟨[], [], [], []⟩, ⟨[], [], [], []⟩⟩ "Atraxa" "h1"
      bigDecklist)
    "Atraxa" "h2" ["Sol Ring"]

/-- Claim C3, evaluation at a failing input: `_save_decklist` inserts
the deck row *before* the over-99 validation and the rejection path
never removes it; the next successful save commits the whole open
transaction, so the rejected deck's row `(1, 1, "h1")` persists in the
committed store (with no membership rows), alongside the valid deck
`(2, 1, "h2")` and its membership row — contradicting the claim that no
deck row for the offending deck persists. -/
theorem save_decklist_rejected_deck_row_persists :
    bigDecklist.length = 100 ∧ bigDecklist.Nodup ∧
    connAfterRejectedThenGood.committed.decks = [(1, 1, "h1"), (2, 1, "h2")] ∧
    connAfterRejectedThenGood.committed.deckCards = [(2, 1)] ∧
    connAfterRejectedThenGood.committed.cards = [(1, "Sol Ring")] := by
  refine ⟨by decide, by decide, by decide, by decide, by decide⟩

/-- Claim C4, evaluation at a failing input: with one deck and one card
appearing once, threshold `5` leaves the vocabulary empty, and the
constructor fails with the SQLite syntax error produced by the
malformed empty `IN ()` list — there is no explicit empty-vocabulary
check or configuration-specific message in the code. -/
theorem empty_vocabulary_raises_sql_syntax_fault :
    cardsAboveThreshold ⟨[(1, 10)], [(1, 100)]⟩ 5 = [] ∧
    TrainingSetCreator.init ⟨[(1, 10)], [(1, 100)]⟩ 5 =
      Except.error "sqlite3.OperationalError: near rparen: syntax error" := by
  refine ⟨by decide, ?_⟩
  unfold TrainingSetCreator.init
  rw [if_pos (by decide)]
